import Mathlib

/-!
# Verification of the DyNet XOR tutorial notebook and its implied autodiff core

This file embeds, in Lean 4:

* the plain Python code of `examples/jupyter-tutorials/tutorial-1-xor.ipynb`
  (the XOR instance generator and the training-loop bookkeeping), and
* the minimal computation-graph / automatic-differentiation engine that the
  notebook invokes.  The engine itself (`dynet`) is not part of this
  repository, so those components are modelled from the specification's
  component contracts (Tensor, Parameter Store, Expression Graph, Forward
  Evaluator, Backward Engine, Optimizer); each such definition carries a
  doc comment starting `Modelled from the spec:`.

Theorems at the end settle the frozen claims about the notebook and the
engine contracts.
-/

namespace XorTutorial

/-! ## The notebook's own code -/

/-- Embedding of the notebook's `create_xor_instances(num_rounds=2000)`:
for each round, for `x1 in 0,1`, for `x2 in 0,1`, append `(x1,x2)` to
`questions` and `0 if x1==x2 else 1` to `answers`. -/
def create_xor_instances (num_rounds : Nat := 2000) : List (Nat × Nat) × List Nat :=
  (List.range num_rounds).foldl
    (fun qa _round =>
      [0, 1].foldl
        (fun qa x1 =>
          [0, 1].foldl
            (fun qa x2 =>
              let answer := if x1 == x2 then 0 else 1
              (qa.1 ++ [(x1, x2)], qa.2 ++ [answer]))
            qa)
        qa)
    ([], [])

/-- The four question pairs produced by one round of the generator. -/
def xorQuestionsBlock : List (Nat × Nat) := [(0, 0), (0, 1), (1, 0), (1, 1)]

/-- The four answers produced by one round of the generator. -/
def xorAnswersBlock : List Nat := [0, 1, 1, 0]

/-! ## The training loop's bookkeeping (notebook cells 18 / 28)

The loop body is `seen_instances += 1; total_loss += loss.value(); ...;
if (seen_instances > 1 and seen_instances % 100 == 0): print "average loss
is:", total_loss / seen_instances`.  The per-example loss values are
abstracted as a sequence `lossSeq : Nat → ℝ` (the value observed at each
step); the loop state records the accumulator, the counter, and the list of
printed (instance-count, average) pairs. -/

structure LoopState where
  total_loss : ℝ
  seen_instances : Nat
  printed : List (Nat × ℝ)

/-- One iteration of the notebook's training loop, bookkeeping only. -/
noncomputable def trainLoopStep (lossVal : ℝ) (st : LoopState) : LoopState :=
  let seen := st.seen_instances + 1
  let total := st.total_loss + lossVal
  { total_loss := total
    seen_instances := seen
    printed :=
      if 1 < seen ∧ seen % 100 = 0 then st.printed ++ [(seen, total / (seen : ℝ))]
      else st.printed }

/-- The notebook's loop over the first `k` (question, answer) pairs, starting
from `total_loss = 0`, `seen_instances = 0`, nothing printed. -/
noncomputable def runTrainLoop (lossSeq : Nat → ℝ) (k : Nat) : LoopState :=
  (List.range k).foldl (fun st i => trainLoopStep (lossSeq i) st)
    ⟨0, 0, []⟩

/-! ## The autodiff core, modelled from the spec

The dynet engine the notebook calls is not part of this repository; the
following definitions model the specification's component contracts
(sections 3, 4.1 to 4.5 of the spec). -/

/-- Modelled from the spec: Tensor — shape plus flat row-major backing
buffer of numeric values (reals here); the library itself is absent from
the repository. -/
structure Tensor where
  shape : List Nat
  data : List ℝ

/-- The default tensor used for out-of-range lookups. -/
def defaultTensor : Tensor := ⟨[], []⟩

/-- Row count of a shape (a vector is a single column). -/
def shapeRows (s : List Nat) : Nat := s.headD 1

/-- Column count of a shape (a vector has one column). -/
def shapeCols (s : List Nat) : Nat := (s.drop 1).headD 1

/-- Result shape of a matrix product: matrix times vector gives a vector,
matrix times matrix gives a matrix. -/
def matmulShape (sa sb : List Nat) : List Nat :=
  if sb.length ≤ 1 then [shapeRows sa] else [shapeRows sa, shapeCols sb]

/-- Row-major data of the product of an `m x n` and an `n x k` matrix. -/
def matMulData (m n k : Nat) (a b : List ℝ) : List ℝ :=
  (List.range m).flatMap (fun i =>
    (List.range k).map (fun j =>
      ((List.range n).map (fun l => a.getD (i * n + l) 0 * b.getD (l * k + j) 0)).sum))

/-- Row-major data of the transpose of an `r x c` matrix. -/
def transposeData (r c : Nat) (d : List ℝ) : List ℝ :=
  (List.range c).flatMap (fun i => (List.range r).map (fun j => d.getD (j * c + i) 0))

/-- Elementwise map over a tensor's buffer. -/
def Tensor.map (t : Tensor) (f : ℝ → ℝ) : Tensor := ⟨t.shape, t.data.map f⟩

/-- Elementwise sum of two tensors (shape of the first). -/
def tAdd (a b : Tensor) : Tensor := ⟨a.shape, List.zipWith (· + ·) a.data b.data⟩

/-- The all-zero tensor of a given shape. -/
def zeroTensor (s : List Nat) : Tensor := ⟨s, List.replicate s.prod 0⟩

/-- The all-one tensor of a given shape. -/
def oneTensor (s : List Nat) : Tensor := ⟨s, List.replicate s.prod 1⟩

/-- Modelled from the spec: the logistic sigmoid used by `logistic`. -/
noncomputable def sigmoidR (x : ℝ) : ℝ := 1 / (1 + Real.exp (-x))

/-- The clamping margin for `binary_log_loss` probabilities. -/
noncomputable def clampEps : ℝ := 1 / 10 ^ 10

/-- Modelled from the spec: probabilities are clamped away from 0 and 1
before taking logarithms, so `binary_log_loss` never evaluates `log` at a
non-positive argument. -/
noncomputable def clampProb (p : ℝ) : ℝ :=
  if p ≤ 0 then clampEps else if 1 ≤ p then 1 - clampEps else p

/-- Modelled from the spec: `binary_log_loss(p, y)` computes
`-(y*log(p) + (1-y)*log(1-p))` with the probability clamped. -/
noncomputable def bllScalar (p y : ℝ) : ℝ :=
  -(y * Real.log (clampProb p) + (1 - y) * Real.log (1 - clampProb p))

/-- Modelled from the spec: Parameter Store — owns trainable tensors and
their equally-shaped accumulated-gradient tensors. -/
structure ParamStore where
  values : List Tensor
  grads : List Tensor

/-- The store's well-formedness invariant: one gradient accumulator per
parameter. -/
def StoreWF (s : ParamStore) : Prop := s.values.length = s.grads.length

/-- Current value of a parameter handle. -/
def ParamStore.valueOf (s : ParamStore) (h : Nat) : Tensor :=
  s.values.getD h defaultTensor

/-- Current accumulated gradient of a parameter handle. -/
def ParamStore.gradOf (s : ParamStore) (h : Nat) : Tensor :=
  s.grads.getD h defaultTensor

/-- Modelled from the spec: `accumulate_gradient(handle, gradTensor)` adds
into the accumulator. -/
def ParamStore.accumulate_gradient (s : ParamStore) (h : Nat) (g : Tensor) : ParamStore :=
  { s with grads := s.grads.set h (tAdd (s.grads.getD h defaultTensor) g) }

/-- Modelled from the spec: `clear_gradients()` zeroes all accumulators. -/
def ParamStore.clear_gradients (s : ParamStore) : ParamStore :=
  { s with grads := s.grads.map (fun g => ⟨g.shape, g.data.map (fun _ => 0)⟩) }

/-- Modelled from the spec: `declare(shape)`/`add_parameters` allocates a
parameter with the given initial values and a zero gradient accumulator. -/
def ParamStore.add_parameters (s : ParamStore) (shape : List Nat) (init : List ℝ) :
    ParamStore × Nat :=
  ({ values := s.values ++ [⟨shape, init⟩], grads := s.grads ++ [zeroTensor shape] },
   s.values.length)

/-- Modelled from the spec: the Optimizer's `update(learningRate)` applies
`value -= learningRate * gradient` to every parameter, then calls
`clear_gradients()`. -/
noncomputable def ParamStore.update (s : ParamStore) (lr : ℝ) : ParamStore :=
  ParamStore.clear_gradients
    { s with
      values := List.zipWith
        (fun v g => ⟨v.shape, List.zipWith (fun a b => a - lr * b) v.data g.data⟩)
        s.values s.grads }

/-- Modelled from the spec: Expression Node — tagged variant over
{Input, ParameterRef, MatMul, Add, Tanh, Sigmoid, BinaryLogLoss}; composite
nodes hold the ids of their operand nodes. -/
inductive Node where
  | input (shape : List Nat) (data : List ℝ)
  | paramRef (h : Nat)
  | matmul (a b : Nat)
  | add (a b : Nat)
  | tanh (a : Nat)
  | sigmoid (a : Nat)
  | binaryLogLoss (p y : Nat)

/-- The default node used for out-of-range lookups. -/
def nodeDefault : Node := .input [] []

/-- The operand node ids of a node. -/
def Node.operands : Node → List Nat
  | .input _ _ => []
  | .paramRef _ => []
  | .matmul a b => [a, b]
  | .add a b => [a, b]
  | .tanh a => [a]
  | .sigmoid a => [a]
  | .binaryLogLoss p y => [p, y]

/-- Whether a node is a `paramRef` for the given handle. -/
def Node.isParamRefFor : Node → Nat → Bool
  | .paramRef h, k => h == k
  | _, _ => false

/-- Modelled from the spec: error kinds reported by graph construction and
by the backward engine (ShapeMismatch, NonScalarBackwardRoot). -/
inductive GraphError where
  | shapeMismatch
  | nonScalarBackwardRoot

/-- `Bool`-valued success test for `Except` results. -/
def exceptIsOk {ε α : Type} : Except ε α → Bool
  | .ok _ => true
  | .error _ => false

/-- Extract the success value of an `Except`, with a default. -/
def exceptGetD {ε α : Type} (e : Except ε α) (d : α) : α :=
  match e with
  | .ok a => a
  | .error _ => d

/-- Modelled from the spec: Expression Graph — the nodes created since the
last reset, in creation order (node ids index this list), together with
their construction-time shapes. -/
structure Graph where
  nodes : List Node
  shapes : List (List Nat)

/-- `renew_cg` / `reset()` — a fresh, empty generation. -/
def Graph.empty : Graph := ⟨[], []⟩

/-- The construction-time shape of a node id. -/
def Graph.shapeAt (g : Graph) (i : Nat) : List Nat := g.shapes.getD i []

/-- Append a node with its shape; returns the new node's id. -/
def Graph.push (g : Graph) (nd : Node) (sh : List Nat) : Graph × Nat :=
  (⟨g.nodes ++ [nd], g.shapes ++ [sh]⟩, g.nodes.length)

/-- Modelled from the spec: `input(tensorLike)` — a leaf bound to
externally supplied mutable data. -/
def Graph.inputNode (g : Graph) (shape : List Nat) (data : List ℝ) : Graph × Nat :=
  g.push (.input shape data) shape

/-- The notebook's `vecInput(n)` — an input vector of size `n`. -/
def Graph.vecInput (g : Graph) (n : Nat) : Graph × Nat :=
  g.inputNode [n] (List.replicate n 0)

/-- The notebook's `scalarInput(v)`. -/
def Graph.scalarInput (g : Graph) (v : ℝ) : Graph × Nat :=
  g.inputNode [1] [v]

/-- Modelled from the spec: `parameter(handle)` — a leaf reading live from
the Parameter Store. -/
def Graph.parameter (g : Graph) (s : ParamStore) (h : Nat) : Graph × Nat :=
  g.push (.paramRef h) (s.valueOf h).shape

/-- Modelled from the spec: `matmul(A,B)` validates the inner dimensions at
construction time and fails with ShapeMismatch iff `A.cols != B.rows`. -/
def Graph.matmul (g : Graph) (a b : Nat) : Except GraphError (Graph × Nat) :=
  if shapeCols (g.shapeAt a) = shapeRows (g.shapeAt b) then
    .ok (g.push (.matmul a b) (matmulShape (g.shapeAt a) (g.shapeAt b)))
  else .error .shapeMismatch

/-- Modelled from the spec: elementwise `add` requires equal operand
shapes. -/
def Graph.addNode (g : Graph) (a b : Nat) : Except GraphError (Graph × Nat) :=
  if g.shapeAt a = g.shapeAt b then .ok (g.push (.add a b) (g.shapeAt a))
  else .error .shapeMismatch

/-- `tanh` — elementwise, same shape; nothing to validate. -/
def Graph.tanhNode (g : Graph) (a : Nat) : Graph × Nat :=
  g.push (.tanh a) (g.shapeAt a)

/-- The notebook's `logistic` — elementwise sigmoid, same shape. -/
def Graph.logistic (g : Graph) (a : Nat) : Graph × Nat :=
  g.push (.sigmoid a) (g.shapeAt a)

/-- Modelled from the spec: `binary_log_loss` requires its second operand
to be a scalar (shape product = 1) and its output is always scalar. -/
def Graph.binary_log_loss (g : Graph) (p y : Nat) : Except GraphError (Graph × Nat) :=
  if (g.shapeAt y).prod = 1 then .ok (g.push (.binaryLogLoss p y) [1])
  else .error .shapeMismatch

/-- `set(NodeId, data)` on an `input` leaf replaces its bound data without
rebuilding downstream structure (no-op on non-input nodes). -/
def Graph.setInput (g : Graph) (k : Nat) (data : List ℝ) : Graph :=
  match g.nodes.getD k nodeDefault with
  | .input sh _ => { g with nodes := g.nodes.set k (.input sh data) }
  | _ => g

/-! ## Forward evaluation -/

/-- Build a value per node, left to right: each new entry is a function of
the already-built prefix and the node.  Both the forward evaluator and the
dependency analysis are instances of this scheme. -/
def buildFold {α : Type} (f : List α → Node → α) (nodes : List Node) : List α :=
  nodes.foldl (fun acc nd => acc ++ [f acc nd]) []

/-- One node's forward value, given a lookup for operand values.
Numeric semantics per the spec: `tanh`/`sigmoid` elementwise,
`binary_log_loss` on the (clamped) scalar operands. -/
noncomputable def evalNode (s : ParamStore) (look : Nat → Tensor) : Node → Tensor
  | .input sh d => ⟨sh, d⟩
  | .paramRef h => s.valueOf h
  | .matmul a b =>
      let ta := look a
      let tb := look b
      ⟨matmulShape ta.shape tb.shape,
        matMulData (shapeRows ta.shape) (shapeCols ta.shape) (shapeCols tb.shape)
          ta.data tb.data⟩
  | .add a b => tAdd (look a) (look b)
  | .tanh a => (look a).map Real.tanh
  | .sigmoid a => (look a).map sigmoidR
  | .binaryLogLoss p y =>
      ⟨[1], [bllScalar ((look p).data.getD 0 0) ((look y).data.getD 0 0)]⟩

/-- Modelled from the spec: the Forward Evaluator's reference semantics —
values of all nodes, computed leaf to root in topological (= creation)
order. -/
noncomputable def evalList (s : ParamStore) (nodes : List Node) : List Tensor :=
  buildFold (fun vals nd => evalNode s (fun j => vals.getD j defaultTensor) nd) nodes

/-- The forward value of one node. -/
noncomputable def forwardVal (s : ParamStore) (g : Graph) (n : Nat) : Tensor :=
  (evalList s g.nodes).getD n defaultTensor

/-- Graph well-formedness: every operand id is smaller than the node's own
id (nodes reference only previously created nodes). -/
def wfNodes (nodes : List Node) : Prop :=
  ∀ i, i < nodes.length → ∀ j ∈ (nodes.getD i nodeDefault).operands, j < i

/-! ## Memoized evaluation -/

/-- Cache lookup with default. -/
noncomputable def cacheLook (c : Nat → Option Tensor) (j : Nat) : Tensor :=
  (c j).getD defaultTensor

/-- One memoization step: compute and cache node `i` unless it is already
cached. -/
noncomputable def stepFill (s : ParamStore) (nodes : List Node)
    (c : Nat → Option Tensor) (i : Nat) : Nat → Option Tensor :=
  match c i with
  | some _ => c
  | none => fun j =>
      if j = i then some (evalNode s (cacheLook c) (nodes.getD i nodeDefault)) else c j

/-- Fill the cache for all nodes below `upTo`, reusing cached values. -/
noncomputable def fillCache (s : ParamStore) (nodes : List Node)
    (c : Nat → Option Tensor) (upTo : Nat) : Nat → Option Tensor :=
  (List.range upTo).foldl (stepFill s nodes) c

/-- Modelled from the spec: `evaluate(NodeId)` — memoized forward
evaluation; returns the requested node's value together with the updated
cache. -/
noncomputable def evaluate (s : ParamStore) (g : Graph) (c : Nat → Option Tensor)
    (n : Nat) : Tensor × (Nat → Option Tensor) :=
  (cacheLook (fillCache s g.nodes c (n + 1)) n, fillCache s g.nodes c (n + 1))

/-- Per-node flags: does node `i` (transitively) depend on node `k`?
Built leaf to root; a node depends on `k` iff it is `k` or one of its
operands depends on `k`. -/
def dependFlags (nodes : List Node) (k : Nat) : List Bool :=
  buildFold (fun flags nd =>
    (flags.length == k) || nd.operands.any (fun j => flags.getD j false)) nodes

/-- Whether node `i` transitively depends on node `k`. -/
def dependsOn (nodes : List Node) (i k : Nat) : Bool :=
  (dependFlags nodes k).getD i false

/-- Modelled from the spec: `set` at the ComputationGraph level — replace
an input leaf's data and invalidate the memoized values of all dependent
nodes. -/
noncomputable def cgSet (g : Graph) (c : Nat → Option Tensor) (k : Nat) (data : List ℝ) :
    Graph × (Nat → Option Tensor) :=
  (g.setInput k data, fun i => if dependsOn g.nodes i k then none else c i)

/-- Cache coherence: every cached entry equals the reference forward
value. -/
def coherent (s : ParamStore) (nodes : List Node) (c : Nat → Option Tensor) : Prop :=
  ∀ i v, c i = some v → v = (evalList s nodes).getD i defaultTensor

/-! ## Backward engine -/

/-- Add a gradient contribution into the accumulator at index `j`
(accumulating, not overwriting). -/
def addGrad (grads : List Tensor) (j : Nat) (g : Tensor) : List Tensor :=
  grads.set j (tAdd (grads.getD j defaultTensor) g)

/-- One step of the reverse pass: apply node `i`'s local derivative rule,
propagating its accumulated output gradient into its operands' gradient
accumulators; `paramRef` leaves hand their gradient to the Parameter
Store, `input` leaves discard it. -/
noncomputable def backStep (vals : List Tensor) (nodes : List Node)
    (acc : List Tensor × ParamStore) (i : Nat) : List Tensor × ParamStore :=
  let grads := acc.1
  let s := acc.2
  let dOut := grads.getD i defaultTensor
  match nodes.getD i nodeDefault with
  | .input _ _ => (grads, s)
  | .paramRef h => (grads, s.accumulate_gradient h dOut)
  | .matmul a b =>
      let ta := vals.getD a defaultTensor
      let tb := vals.getD b defaultTensor
      let m := shapeRows ta.shape
      let n := shapeCols ta.shape
      let k := shapeCols tb.shape
      let dA : Tensor := ⟨ta.shape, matMulData m k n dOut.data (transposeData n k tb.data)⟩
      let dB : Tensor := ⟨tb.shape, matMulData n m k (transposeData m n ta.data) dOut.data⟩
      (addGrad (addGrad grads a dA) b dB, s)
  | .add a b => (addGrad (addGrad grads a dOut) b dOut, s)
  | .tanh a =>
      let v := vals.getD i defaultTensor
      (addGrad grads a ⟨v.shape, List.zipWith (fun d t => d * (1 - t ^ 2)) dOut.data v.data⟩, s)
  | .sigmoid a =>
      let v := vals.getD i defaultTensor
      (addGrad grads a
        ⟨v.shape, List.zipWith (fun d t => d * (t * (1 - t))) dOut.data v.data⟩, s)
  | .binaryLogLoss p y =>
      let pv := (vals.getD p defaultTensor).data.getD 0 0
      let yv := (vals.getD y defaultTensor).data.getD 0 0
      let pc := clampProb pv
      let d0 := dOut.data.getD 0 0
      let dP : Tensor := ⟨(vals.getD p defaultTensor).shape, [d0 * ((1 - yv) / (1 - pc) - yv / pc)]⟩
      let dY : Tensor := ⟨(vals.getD y defaultTensor).shape, [d0 * (Real.log (1 - pc) - Real.log pc)]⟩
      (addGrad (addGrad grads p dP) y dY, s)

/-- Modelled from the spec: `backward(root)` — requires the root's value to
be scalar (shape product = 1), failing otherwise; initializes the root's
gradient to 1.0 and traverses the nodes in reverse topological (= reverse
creation) order, accumulating gradients. -/
noncomputable def backward (s : ParamStore) (g : Graph) (root : Nat) :
    Except GraphError (List Tensor × ParamStore) :=
  if (g.shapeAt root).prod = 1 then
    let vals := evalList s g.nodes
    let grads0 := (g.shapes.map zeroTensor).set root (oneTensor (g.shapeAt root))
    .ok (((List.range (root + 1)).reverse).foldl (backStep vals g.nodes) (grads0, s))
  else .error .nonScalarBackwardRoot

/-! ## The notebook's network builder and dynamic training loop -/

/-- The step events of one training example, for the per-example state
machine `Reset -> Build -> Forward -> Backward -> Update`. -/
inductive Event where
  | reset
  | build
  | forward
  | backprop
  | update

/-- Embedding of the notebook's `create_xor_network(pW, pV, pb, inputs,
expected_answer)` (cell 28): renew the graph, add the parameters as
expressions, bind the inputs, and build
`binary_log_loss(logistic(V*(tanh((W*x)+b))), y)`.  Returns the finished
graph together with the loss node's id. -/
noncomputable def create_xor_network (s : ParamStore) (pW pV pb : Nat)
    (inputs : List ℝ) (expected_answer : ℝ) : Except GraphError (Graph × Nat) :=
  let g0 := Graph.empty
  let p1 := g0.parameter s pW
  let p2 := p1.1.parameter s pV
  let p3 := p2.1.parameter s pb
  let p4 := p3.1.vecInput inputs.length
  let g5 := p4.1.setInput p4.2 inputs
  let p6 := g5.scalarInput expected_answer
  match p6.1.matmul p1.2 p4.2 with
  | .error e => .error e
  | .ok p7 =>
      match p7.1.addNode p7.2 p3.2 with
      | .error e => .error e
      | .ok p8 =>
          let p9 := p8.1.tanhNode p8.2
          match p9.1.matmul p2.2 p9.2 with
          | .error e => .error e
          | .ok p10 =>
              let p11 := p10.1.logistic p10.2
              match p11.1.binary_log_loss p11.2 p6.2 with
              | .error e => .error e
              | .ok p12 => .ok (p12.1, p12.2)

/-- One example of the notebook's dynamic-network training loop (cell 28):
build a fresh network for the example, run forward on the loss, run
backward, and let the trainer update; the events performed are recorded. -/
noncomputable def runDynExample (lr : ℝ) (s : ParamStore) (pW pV pb : Nat)
    (q : Nat × Nat) (ans : Nat) : ParamStore × List Event :=
  match create_xor_network s pW pV pb [(q.1 : ℝ), (q.2 : ℝ)] (ans : ℝ) with
  | .error _ => (s, [.reset, .build])
  | .ok gl =>
      let _lossValue := forwardVal s gl.1 gl.2
      match backward s gl.1 gl.2 with
      | .error _ => (s, [.reset, .build, .forward])
      | .ok grs => (grs.2.update lr, [.reset, .build, .forward, .backprop, .update])

/-- The notebook's dynamic-network loop over a list of (question, answer)
pairs, threading the parameter store and concatenating the per-example
event traces. -/
noncomputable def runDynLoop (lr : ℝ) (s : ParamStore) (pW pV pb : Nat)
    (qas : List ((Nat × Nat) × Nat)) : ParamStore × List Event :=
  qas.foldl
    (fun acc qa =>
      ((runDynExample lr acc.1 pW pV pb qa.1 qa.2).1,
        acc.2 ++ (runDynExample lr acc.1 pW pV pb qa.1 qa.2).2))
    (s, [])

/-- The parameter-shape assumptions of the XOR notebook: `pW` is 8 x 2,
`pV` is 1 x 8, `pb` is 8-dimensional, and the three handles are distinct
live parameters of a well-formed store. -/
def xorStoreOK (s : ParamStore) (pW pV pb : Nat) : Prop :=
  StoreWF s ∧ pW < s.values.length ∧ pV < s.values.length ∧ pb < s.values.length ∧
    (s.valueOf pW).shape = [8, 2] ∧ (s.valueOf pV).shape = [1, 8] ∧
    (s.valueOf pb).shape = [8]

/-- The graph `create_xor_network` builds when the parameter shapes are the
notebook's (`W` 8 x 2, `V` 1 x 8, `b` 8-dim) and the input has two
components; the loss is node 10. -/
noncomputable def xorGraph (pW pV pb : Nat) (q1 q2 ans : ℝ) : Graph :=
  ⟨[.paramRef pW, .paramRef pV, .paramRef pb, .input [2] [q1, q2], .input [1] [ans],
    .matmul 0 3, .add 5 2, .tanh 6, .matmul 1 7, .sigmoid 8, .binaryLogLoss 9 4],
   [[8, 2], [1, 8], [8], [2], [1], [8], [8], [8], [1], [1], [1]]⟩

/-- The event trace of one well-shaped training example. -/
def exampleTrace : List Event :=
  [.reset, .build, .forward, .backprop, .update]

/-- A two-input graph whose root is a `binary_log_loss` node, as in the
notebook's `loss = binary_log_loss(output, y)`. -/
noncomputable def bllDemoGraph (p y : ℝ) : Graph :=
  ⟨[.input [1] [p], .input [1] [y], .binaryLogLoss 0 1], [[1], [1], [1]]⟩

/-- A store with a single scalar parameter, for the backward demos. -/
noncomputable def demoStore : ParamStore :=
  ⟨[⟨[1], [5]⟩], [⟨[1], [0]⟩]⟩

/-- A graph whose root `add` node uses the parameter leaf twice, so the
leaf receives two incoming gradient contributions. -/
def demoGraph : Graph :=
  ⟨[.paramRef 0, .add 0 0], [[1], [1]]⟩

/-- A store with the notebook's three parameter shapes (`W` 8 x 2, `V`
1 x 8, `b` 8-dim), zero-initialized. -/
noncomputable def xorDemoStore : ParamStore :=
  ⟨[⟨[8, 2], List.replicate 16 0⟩, ⟨[1, 8], List.replicate 8 0⟩,
    ⟨[8], List.replicate 8 0⟩],
   [⟨[8, 2], List.replicate 16 0⟩, ⟨[1, 8], List.replicate 8 0⟩,
    ⟨[8], List.replicate 8 0⟩]⟩

/-- An input feeding a `tanh` node, for the memoization demo. -/
noncomputable def memoDemoGraph : Graph :=
  ⟨[.input [1] [3], .tanh 0], [[1], [1]]⟩

/-! ## Facts about the notebook code -/

lemma create_xor_instances_succ (n : Nat) :
    create_xor_instances (n + 1) =
      ((create_xor_instances n).1 ++ xorQuestionsBlock,
       (create_xor_instances n).2 ++ xorAnswersBlock) := by
  unfold create_xor_instances
  rw [List.range_succ, List.foldl_append]
  generalize (List.foldl _ (([], []) : List (Nat × Nat) × List Nat) (List.range n)) = qa
  obtain ⟨qs, as⟩ := qa
  simp [xorQuestionsBlock, xorAnswersBlock]

lemma create_xor_instances_eq (n : Nat) :
    create_xor_instances n =
      ((List.replicate n xorQuestionsBlock).flatten,
       (List.replicate n xorAnswersBlock).flatten) := by
  induction n with
  | zero => rfl
  | succ k ih =>
      rw [create_xor_instances_succ, ih]
      have hq : List.replicate (k + 1) xorQuestionsBlock =
          List.replicate k xorQuestionsBlock ++ [xorQuestionsBlock] := by
        rw [← List.replicate_succ' ]
      have ha : List.replicate (k + 1) xorAnswersBlock =
          List.replicate k xorAnswersBlock ++ [xorAnswersBlock] := by
        rw [← List.replicate_succ']
      simp [hq, ha]

lemma create_xor_instances_lengths (n : Nat) :
    (create_xor_instances n).1.length = 4 * n ∧
      (create_xor_instances n).2.length = 4 * n := by
  rw [create_xor_instances_eq]
  constructor <;>
    simp [List.length_flatten, xorQuestionsBlock, xorAnswersBlock, Nat.mul_comm]

lemma xor_getD_answer (n : Nat) :
    ∀ i, i < 4 * n →
      ((List.replicate n xorAnswersBlock).flatten).getD i 0 =
        (if (((List.replicate n xorQuestionsBlock).flatten).getD i (0, 0)).1 =
            (((List.replicate n xorQuestionsBlock).flatten).getD i (0, 0)).2
          then 0 else 1) := by
  induction n with
  | zero => intro i hi; omega
  | succ k ih =>
      intro i hi
      rw [List.replicate_succ, List.replicate_succ, List.flatten_cons, List.flatten_cons]
      by_cases h4 : i < 4
      · interval_cases i <;> rfl
      · push_neg at h4
        have hq : xorQuestionsBlock.length = 4 := rfl
        have ha : xorAnswersBlock.length = 4 := rfl
        rw [List.getD_append_right _ _ _ _ (by omega : xorAnswersBlock.length ≤ i),
            List.getD_append_right _ _ _ _ (by omega : xorQuestionsBlock.length ≤ i)]
        rw [hq, ha]
        exact ih (i - 4) (by omega)

lemma runTrainLoop_succ (lossSeq : Nat → ℝ) (k : Nat) :
    runTrainLoop lossSeq (k + 1) = trainLoopStep (lossSeq k) (runTrainLoop lossSeq k) := by
  unfold runTrainLoop
  rw [List.range_succ, List.foldl_append]
  rfl

lemma runTrainLoop_spec (lossSeq : Nat → ℝ) (k : Nat) :
    (runTrainLoop lossSeq k).total_loss = ((List.range k).map lossSeq).sum ∧
    (runTrainLoop lossSeq k).seen_instances = k ∧
    (runTrainLoop lossSeq k).printed =
      ((List.range k).filter (fun j => decide (1 < j + 1 ∧ (j + 1) % 100 = 0))).map
        (fun j => (j + 1, ((List.range (j + 1)).map lossSeq).sum / ((j + 1 : Nat) : ℝ))) := by
  induction k with
  | zero => refine ⟨rfl, rfl, rfl⟩
  | succ k ih =>
      obtain ⟨iht, ihs, ihp⟩ := ih
      rw [runTrainLoop_succ]
      by_cases h : 1 < k + 1 ∧ (k + 1) % 100 = 0
      · refine ⟨?_, ?_, ?_⟩
        · simp [trainLoopStep, iht, ihs, List.range_succ]
        · simp [trainLoopStep, ihs]
        · rw [List.range_succ, List.filter_append, List.map_append]
          simp only [trainLoopStep, ihs, ihp, iht, h, if_pos, List.filter_cons,
            List.filter_nil, decide_eq_true_eq]
          simp [h, List.range_succ]
      · refine ⟨?_, ?_, ?_⟩
        · simp [trainLoopStep, iht, ihs, List.range_succ]
        · simp [trainLoopStep, ihs]
        · rw [List.range_succ, List.filter_append, List.map_append]
          simp only [trainLoopStep, ihs, ihp, iht, h, if_neg, List.filter_cons,
            List.filter_nil, decide_eq_true_eq]
          simp [h]

/-! ## Generic facts about `buildFold` -/

lemma foldl_build_length {α : Type} (f : List α → Node → α) :
    ∀ (ns : List Node) (acc : List α),
      (ns.foldl (fun acc nd => acc ++ [f acc nd]) acc).length = acc.length + ns.length := by
  intro ns
  induction ns with
  | nil => intro acc; simp
  | cons nd ns ih =>
      intro acc
      simp only [List.foldl_cons, ih, List.length_append, List.length_cons,
        List.length_nil]
      omega

lemma foldl_build_prefix {α : Type} (f : List α → Node → α) :
    ∀ (ns : List Node) (acc : List α),
      acc <+: ns.foldl (fun acc nd => acc ++ [f acc nd]) acc := by
  intro ns
  induction ns with
  | nil => intro acc; exact List.prefix_refl acc
  | cons nd ns ih =>
      intro acc
      exact List.IsPrefix.trans (List.prefix_append acc [f acc nd]) (ih _)

lemma buildFold_length {α : Type} (f : List α → Node → α) (nodes : List Node) :
    (buildFold f nodes).length = nodes.length := by
  unfold buildFold
  rw [foldl_build_length]
  simp

lemma isPrefix_getD {α : Type} {l L : List α} (h : l <+: L) {i : Nat}
    (hi : i < l.length) (d : α) : L.getD i d = l.getD i d := by
  obtain ⟨t, rfl⟩ := h
  exact List.getD_append _ _ _ _ hi

lemma buildFold_append_prefix {α : Type} (f : List α → Node → α) (ns ms : List Node) :
    buildFold f ns <+: buildFold f (ns ++ ms) := by
  unfold buildFold
  rw [List.foldl_append]
  exact foldl_build_prefix f ms _

lemma buildFold_getD {α : Type} (f : List α → Node → α) (nodes : List Node) (i : Nat)
    (hi : i < nodes.length) (d : α) :
    (buildFold f nodes).getD i d =
      f (buildFold f (nodes.take i)) (nodes.getD i nodeDefault) := by
  have hdecomp : nodes = nodes.take i ++ nodes.getD i nodeDefault :: nodes.drop (i + 1) := by
    conv_lhs => rw [← List.take_append_drop i nodes]
    congr 1
    rw [List.getD_eq_getElem _ _ hi]
    exact (List.drop_eq_getElem_cons hi).symm ▸ rfl
  have hlen : (buildFold f (nodes.take i)).length = i := by
    rw [buildFold_length, List.length_take]
    omega
  conv_lhs => rw [hdecomp]
  have hpre : buildFold f (nodes.take i) ++
      [f (buildFold f (nodes.take i)) (nodes.getD i nodeDefault)] <+:
      buildFold f (nodes.take i ++ nodes.getD i nodeDefault :: nodes.drop (i + 1)) := by
    have h1 : buildFold f (nodes.take i ++ [nodes.getD i nodeDefault]) =
        buildFold f (nodes.take i) ++
          [f (buildFold f (nodes.take i)) (nodes.getD i nodeDefault)] := by
      unfold buildFold
      rw [List.foldl_append]
      rfl
    have h2 : nodes.take i ++ nodes.getD i nodeDefault :: nodes.drop (i + 1) =
        (nodes.take i ++ [nodes.getD i nodeDefault]) ++ nodes.drop (i + 1) := by
      simp
    rw [h2, ← h1]
    exact buildFold_append_prefix f _ _
  rw [isPrefix_getD hpre (by simp [hlen]) d]
  rw [List.getD_append_right _ _ _ _ (by omega : (buildFold f (nodes.take i)).length ≤ i)]
  simp [hlen]

lemma buildFold_take_getD {α : Type} (f : List α → Node → α) (nodes : List Node)
    {i j : Nat} (hj : j < i) (hi : i ≤ nodes.length) (d : α) :
    (buildFold f (nodes.take i)).getD j d = (buildFold f nodes).getD j d := by
  have hpre : buildFold f (nodes.take i) <+: buildFold f nodes := by
    conv_rhs => rw [← List.take_append_drop i nodes]
    exact buildFold_append_prefix f _ _
  have hlen : (buildFold f (nodes.take i)).length = i := by
    rw [buildFold_length, List.length_take]
    omega
  exact (isPrefix_getD hpre (by omega) d).symm

lemma buildFold_getD_ge {α : Type} (f : List α → Node → α) (nodes : List Node)
    {i : Nat} (hi : nodes.length ≤ i) (d : α) : (buildFold f nodes).getD i d = d := by
  apply List.getD_eq_default
  rw [buildFold_length]
  exact hi

/-! ## Forward evaluator facts -/

lemma evalList_length (s : ParamStore) (nodes : List Node) :
    (evalList s nodes).length = nodes.length := buildFold_length _ nodes

lemma evalNode_congr (s : ParamStore) {f g : Nat → Tensor} (nd : Node)
    (h : ∀ j ∈ nd.operands, f j = g j) : evalNode s f nd = evalNode s g nd := by
  cases nd with
  | input sh d => rfl
  | paramRef hh => rfl
  | matmul a b =>
      have ha := h a (by simp [Node.operands])
      have hb := h b (by simp [Node.operands])
      simp [evalNode, ha, hb]
  | add a b =>
      have ha := h a (by simp [Node.operands])
      have hb := h b (by simp [Node.operands])
      simp [evalNode, ha, hb]
  | tanh a =>
      have ha := h a (by simp [Node.operands])
      simp [evalNode, ha]
  | sigmoid a =>
      have ha := h a (by simp [Node.operands])
      simp [evalNode, ha]
  | binaryLogLoss p y =>
      have ha := h p (by simp [Node.operands])
      have hb := h y (by simp [Node.operands])
      simp [evalNode, ha, hb]

lemma evalList_getD (s : ParamStore) (nodes : List Node) (i : Nat)
    (hi : i < nodes.length) :
    (evalList s nodes).getD i defaultTensor =
      evalNode s (fun j => (evalList s (nodes.take i)).getD j defaultTensor)
        (nodes.getD i nodeDefault) :=
  buildFold_getD _ nodes i hi defaultTensor

lemma evalList_getD_wf (s : ParamStore) {nodes : List Node} (hwf : wfNodes nodes)
    {i : Nat} (hi : i < nodes.length) :
    (evalList s nodes).getD i defaultTensor =
      evalNode s (fun j => (evalList s nodes).getD j defaultTensor)
        (nodes.getD i nodeDefault) := by
  rw [evalList_getD s nodes i hi]
  apply evalNode_congr
  intro j hj
  exact buildFold_take_getD _ nodes (hwf i hi j hj) (le_of_lt hi) defaultTensor

lemma evalList_getD_ge (s : ParamStore) (nodes : List Node) {i : Nat}
    (hi : nodes.length ≤ i) : (evalList s nodes).getD i defaultTensor = defaultTensor :=
  buildFold_getD_ge _ nodes hi defaultTensor

/-! ## Memoization facts -/

lemma stepFill_target_isSome (s : ParamStore) (nodes : List Node)
    {c : Nat → Option Tensor} {i : Nat} (h : (c i).isSome) :
    stepFill s nodes c i = c := by
  unfold stepFill
  cases hc : c i with
  | some v => rfl
  | none => rw [hc] at h; simp at h

lemma stepFill_of_isSome (s : ParamStore) (nodes : List Node)
    {c : Nat → Option Tensor} {j : Nat} (i : Nat) (h : (c j).isSome) :
    stepFill s nodes c i j = c j := by
  unfold stepFill
  cases hc : c i with
  | some v => rfl
  | none =>
      by_cases hj : j = i
      · subst hj; rw [hc] at h; simp at h
      · simp [hj]

lemma fillCache_zero (s : ParamStore) (nodes : List Node) (c : Nat → Option Tensor) :
    fillCache s nodes c 0 = c := rfl

lemma fillCache_succ (s : ParamStore) (nodes : List Node) (c : Nat → Option Tensor)
    (u : Nat) :
    fillCache s nodes c (u + 1) = stepFill s nodes (fillCache s nodes c u) u := by
  unfold fillCache
  rw [List.range_succ, List.foldl_append]
  rfl

lemma fillCache_of_isSome (s : ParamStore) (nodes : List Node)
    {c : Nat → Option Tensor} {j : Nat} (h : (c j).isSome) :
    ∀ u, fillCache s nodes c u j = c j := by
  intro u
  induction u with
  | zero => rfl
  | succ u ih =>
      rw [fillCache_succ]
      have h' : ((fillCache s nodes c u) j).isSome := by rw [ih]; exact h
      rw [stepFill_of_isSome s nodes u h', ih]

lemma fillCache_isSome (s : ParamStore) (nodes : List Node)
    (c : Nat → Option Tensor) {i u : Nat} (hiu : i < u) :
    ((fillCache s nodes c u) i).isSome := by
  induction u with
  | zero => omega
  | succ u ih =>
      rw [fillCache_succ]
      by_cases hi : i < u
      · have h' := ih hi
        rw [stepFill_of_isSome s nodes u h']
        exact h'
      · have hieq : i = u := by omega
        subst hieq
        cases hc : (fillCache s nodes c i) i with
        | some v =>
            rw [stepFill_target_isSome s nodes (by rw [hc]; rfl), hc]
            rfl
        | none =>
            unfold stepFill
            rw [hc]
            simp

lemma fillCache_allSome (s : ParamStore) (nodes : List Node)
    {c : Nat → Option Tensor} {u : Nat} (h : ∀ i, i < u → (c i).isSome) :
    fillCache s nodes c u = c := by
  induction u with
  | zero => rfl
  | succ u ih =>
      rw [fillCache_succ, ih (fun i hi => h i (by omega))]
      exact stepFill_target_isSome s nodes (h u (by omega))

lemma fillCache_coherent (s : ParamStore) {nodes : List Node} (hwf : wfNodes nodes)
    {c : Nat → Option Tensor} (hc : coherent s nodes c) :
    ∀ u, coherent s nodes (fillCache s nodes c u) := by
  intro u
  induction u with
  | zero => exact hc
  | succ u ih =>
      rw [fillCache_succ]
      set c1 := fillCache s nodes c u with hc1
      unfold stepFill
      cases hcu : c1 u with
      | some v => exact ih
      | none =>
          intro i v hiv
          by_cases hi : i = u
          · subst hi
            simp only [if_pos rfl] at hiv
            have hv : v = evalNode s (cacheLook c1) (nodes.getD i nodeDefault) := by
              exact (Option.some.injEq _ _ ▸ hiv).symm
            subst hv
            by_cases hlen : i < nodes.length
            · rw [evalList_getD_wf s hwf hlen]
              apply evalNode_congr
              intro j hj
              have hj' : j < i := hwf i hlen j hj
              have hsome : (c1 j).isSome := fillCache_isSome s nodes c hj'
              obtain ⟨w, hw⟩ := Option.isSome_iff_exists.mp hsome
              unfold cacheLook
              rw [hw]
              exact ih j w hw
            · push_neg at hlen
              rw [evalList_getD_ge s nodes hlen,
                List.getD_eq_default _ _ (by omega : nodes.length ≤ i)]
              rfl
          · simp only [if_neg hi] at hiv
            exact ih i v hiv

lemma evaluate_correct (s : ParamStore) {g : Graph} (hwf : wfNodes g.nodes)
    {c : Nat → Option Tensor} (hc : coherent s g.nodes c) (n : Nat) :
    (evaluate s g c n).1 = forwardVal s g n := by
  unfold evaluate
  have hsome : ((fillCache s g.nodes c (n + 1)) n).isSome :=
    fillCache_isSome s g.nodes c (by omega)
  obtain ⟨w, hw⟩ := Option.isSome_iff_exists.mp hsome
  unfold cacheLook forwardVal
  rw [hw]
  exact fillCache_coherent s hwf hc (n + 1) n w hw

lemma evaluate_idem (s : ParamStore) (g : Graph) (c : Nat → Option Tensor) (n : Nat) :
    evaluate s g ((evaluate s g c n).2) n = evaluate s g c n := by
  unfold evaluate
  have h : fillCache s g.nodes (fillCache s g.nodes c (n + 1)) (n + 1) =
      fillCache s g.nodes c (n + 1) :=
    fillCache_allSome s g.nodes (fun i hi => fillCache_isSome s g.nodes c hi)
  rw [h]

/-! ## Dependency analysis and invalidation facts -/

lemma any_congr {α : Type} {f g : α → Bool} :
    ∀ (l : List α), (∀ x ∈ l, f x = g x) → l.any f = l.any g := by
  intro l
  induction l with
  | nil => intro _; rfl
  | cons x l ih =>
      intro h
      simp only [List.any_cons]
      rw [h x (by simp), ih (fun y hy => h y (by simp [hy]))]

lemma dependsOn_eq {nodes : List Node} (hwf : wfNodes nodes) {i : Nat} (k : Nat)
    (hi : i < nodes.length) :
    dependsOn nodes i k =
      ((i == k) || (nodes.getD i nodeDefault).operands.any (fun j => dependsOn nodes j k)) := by
  unfold dependsOn dependFlags
  rw [buildFold_getD _ nodes i hi false]
  have hlen : (buildFold (fun flags nd =>
      (flags.length == k) || nd.operands.any (fun j => flags.getD j false))
      (nodes.take i)).length = i := by
    rw [buildFold_length, List.length_take]
    omega
  rw [hlen]
  congr 1
  apply any_congr
  intro j hj
  exact buildFold_take_getD _ nodes (hwf i hi j hj) (le_of_lt hi) false

lemma dependsOn_ge {nodes : List Node} {i : Nat} (k : Nat)
    (hi : nodes.length ≤ i) : dependsOn nodes i k = false :=
  buildFold_getD_ge _ nodes hi false

lemma getD_set_ne {α : Type} (l : List α) {a j : Nat} (h : a ≠ j) (x : α) (d : α) :
    (l.set a x).getD j d = l.getD j d := by
  rw [List.getD_eq_getElem?_getD, List.getD_eq_getElem?_getD,
    List.getElem?_set_ne h]

lemma getD_set_self {α : Type} (l : List α) {a : Nat} (h : a < l.length) (x : α) (d : α) :
    (l.set a x).getD a d = x := by
  rw [List.getD_eq_getElem?_getD, List.getElem?_set_eq_of_lt x h]
  rfl

lemma wf_set_input {nodes : List Node} (hwf : wfNodes nodes) (k : Nat)
    (sh : List Nat) (d : List ℝ) : wfNodes (nodes.set k (.input sh d)) := by
  intro i hi j hj
  rw [List.length_set] at hi
  by_cases hik : k = i
  · subst hik
    by_cases hk : k < nodes.length
    · rw [getD_set_self nodes hk] at hj
      simp [Node.operands] at hj
    · omega
  · rw [getD_set_ne nodes hik] at hj
    exact hwf i hi j hj

lemma evalList_set_indep (s : ParamStore) {nodes : List Node} (k : Nat) (nd' : Node)
    (hwf : wfNodes nodes) (hwf' : wfNodes (nodes.set k nd')) :
    ∀ i, dependsOn nodes i k = false →
      (evalList s (nodes.set k nd')).getD i defaultTensor =
        (evalList s nodes).getD i defaultTensor := by
  intro i
  induction i using Nat.strong_induction_on with
  | _ i ih =>
      intro hdep
      by_cases hi : i < nodes.length
      · have hik : i ≠ k := by
          intro hik
          subst hik
          rw [dependsOn_eq hwf i hi] at hdep
          simp at hdep
        have hops : ∀ j ∈ (nodes.getD i nodeDefault).operands, dependsOn nodes j k = false := by
          rw [dependsOn_eq hwf k hi] at hdep
          simp only [Bool.or_eq_false_iff, List.any_eq_false] at hdep
          exact fun j hj => by simpa using hdep.2 j hj
        rw [evalList_getD_wf s hwf' (by rw [List.length_set]; exact hi),
          evalList_getD_wf s hwf hi,
          getD_set_ne nodes (fun hk => hik hk.symm) nd' nodeDefault]
        apply evalNode_congr
        intro j hj
        exact ih j (hwf i hi j hj) (hops j hj)
      · push_neg at hi
        rw [evalList_getD_ge s nodes hi,
          evalList_getD_ge s _ (by rw [List.length_set]; exact hi)]

lemma cgSet_coherent (s : ParamStore) {g : Graph} {c : Nat → Option Tensor}
    {k : Nat} {sh : List Nat} {d0 : List ℝ} (data : List ℝ)
    (hwf : wfNodes g.nodes) (hk : g.nodes.getD k nodeDefault = .input sh d0)
    (hc : coherent s g.nodes c) :
    coherent s (cgSet g c k data).1.nodes (cgSet g c k data).2 := by
  unfold cgSet Graph.setInput
  rw [hk]
  intro i v hiv
  simp only at hiv
  by_cases hdep : dependsOn g.nodes i k
  · rw [if_pos hdep] at hiv
    exact absurd hiv (by simp)
  · rw [if_neg hdep] at hiv
    have hv := hc i v hiv
    rw [hv]
    exact (evalList_set_indep s k (.input sh data) hwf
      (wf_set_input hwf k sh data) i (by simpa using hdep)).symm

lemma cgSet_wf {g : Graph} (hwf : wfNodes g.nodes) (c : Nat → Option Tensor)
    (k : Nat) (data : List ℝ) : wfNodes (cgSet g c k data).1.nodes := by
  unfold cgSet Graph.setInput
  cases hk : g.nodes.getD k nodeDefault with
  | input sh d0 => exact wf_set_input hwf k sh data
  | paramRef h => exact hwf
  | matmul a b => exact hwf
  | add a b => exact hwf
  | tanh a => exact hwf
  | sigmoid a => exact hwf
  | binaryLogLoss p y => exact hwf

/-! ## Backward engine facts -/

lemma accumulate_gradient_values (s : ParamStore) (h : Nat) (g : Tensor) :
    (s.accumulate_gradient h g).values = s.values := rfl

lemma backStep_values (vals : List Tensor) (nodes : List Node)
    (acc : List Tensor × ParamStore) (i : Nat) :
    (backStep vals nodes acc i).2.values = acc.2.values := by
  unfold backStep
  cases nodes.getD i nodeDefault <;> rfl

lemma backStep_grads_length (vals : List Tensor) (nodes : List Node)
    (acc : List Tensor × ParamStore) (i : Nat) :
    (backStep vals nodes acc i).2.grads.length = acc.2.grads.length := by
  unfold backStep
  cases nodes.getD i nodeDefault <;>
    simp [ParamStore.accumulate_gradient, List.length_set]

lemma backStep_fst_length (vals : List Tensor) (nodes : List Node)
    (acc : List Tensor × ParamStore) (i : Nat) :
    (backStep vals nodes acc i).1.length = acc.1.length := by
  unfold backStep
  cases nodes.getD i nodeDefault <;> simp [addGrad, List.length_set]

lemma backFold_values (vals : List Tensor) (nodes : List Node) :
    ∀ (l : List Nat) (acc : List Tensor × ParamStore),
      ((l.foldl (backStep vals nodes) acc).2.values = acc.2.values) := by
  intro l
  induction l with
  | nil => intro acc; rfl
  | cons i l ih =>
      intro acc
      rw [List.foldl_cons, ih, backStep_values]

lemma backFold_grads_length (vals : List Tensor) (nodes : List Node) :
    ∀ (l : List Nat) (acc : List Tensor × ParamStore),
      ((l.foldl (backStep vals nodes) acc).2.grads.length = acc.2.grads.length) := by
  intro l
  induction l with
  | nil => intro acc; rfl
  | cons i l ih =>
      intro acc
      rw [List.foldl_cons, ih, backStep_grads_length]

/-- Processing node `i` only adds into gradient slots of its operands,
which on a well-formed graph all sit strictly below `i`. -/
lemma backStep_fst_getD_ge (vals : List Tensor) {nodes : List Node}
    (hwf : wfNodes nodes) (acc : List Tensor × ParamStore) {i j : Nat} (hij : i ≤ j) :
    (backStep vals nodes acc i).1.getD j defaultTensor = acc.1.getD j defaultTensor := by
  have hop : ∀ a, (i < nodes.length → a ∈ (nodes.getD i nodeDefault).operands) → i < nodes.length →
      a ≠ j := by
    intro a ha hlen haj
    have := hwf i hlen a (ha hlen)
    omega
  unfold backStep
  by_cases hlen : i < nodes.length
  · cases hnd : nodes.getD i nodeDefault with
    | input sh d => rfl
    | paramRef h => rfl
    | matmul a b =>
        have hane : a ≠ j := hop a (fun h => by rw [hnd]; simp [Node.operands]) hlen
        have hbne : b ≠ j := hop b (fun h => by rw [hnd]; simp [Node.operands]) hlen
        simp only [addGrad]
        rw [getD_set_ne _ hbne, getD_set_ne _ hane]
    | add a b =>
        have hane : a ≠ j := hop a (fun h => by rw [hnd]; simp [Node.operands]) hlen
        have hbne : b ≠ j := hop b (fun h => by rw [hnd]; simp [Node.operands]) hlen
        simp only [addGrad]
        rw [getD_set_ne _ hbne, getD_set_ne _ hane]
    | tanh a =>
        have hane : a ≠ j := hop a (fun h => by rw [hnd]; simp [Node.operands]) hlen
        simp only [addGrad]
        rw [getD_set_ne _ hane]
    | sigmoid a =>
        have hane : a ≠ j := hop a (fun h => by rw [hnd]; simp [Node.operands]) hlen
        simp only [addGrad]
        rw [getD_set_ne _ hane]
    | binaryLogLoss p y =>
        have hane : p ≠ j := hop p (fun h => by rw [hnd]; simp [Node.operands]) hlen
        have hbne : y ≠ j := hop y (fun h => by rw [hnd]; simp [Node.operands]) hlen
        simp only [addGrad]
        rw [getD_set_ne _ hbne, getD_set_ne _ hane]
  · push_neg at hlen
    rw [List.getD_eq_default _ _ hlen]
    rfl

lemma backFold_fst_getD_ge (vals : List Tensor) {nodes : List Node}
    (hwf : wfNodes nodes) :
    ∀ (l : List Nat) (acc : List Tensor × ParamStore) (j : Nat),
      (∀ i ∈ l, i ≤ j) →
      (l.foldl (backStep vals nodes) acc).1.getD j defaultTensor =
        acc.1.getD j defaultTensor := by
  intro l
  induction l with
  | nil => intro acc j _; rfl
  | cons i l ih =>
      intro acc j hb
      rw [List.foldl_cons, ih _ j (fun x hx => hb x (by simp [hx])),
        backStep_fst_getD_ge vals hwf acc (hb i (by simp))]

/-- The Parameter Store's accumulated gradient of handle `h` after the
reverse pass: the old accumulator plus each processed `paramRef h` node's
final gradient, in processing order. -/
lemma backFold_store_grads (vals : List Tensor) {nodes : List Node}
    (hwf : wfNodes nodes) (h : Nat) :
    ∀ (l : List Nat) (acc : List Tensor × ParamStore),
      l.Pairwise (fun a b => b < a) →
      h < acc.2.grads.length →
      (l.foldl (backStep vals nodes) acc).2.grads.getD h defaultTensor =
        (l.filter (fun i => (nodes.getD i nodeDefault).isParamRefFor h)).foldl
          (fun t i => tAdd t ((l.foldl (backStep vals nodes) acc).1.getD i defaultTensor))
          (acc.2.grads.getD h defaultTensor) := by
  intro l
  induction l with
  | nil => intro acc _ _; rfl
  | cons i l ih =>
      intro acc hpair hh
      have hpair' : l.Pairwise (fun a b => b < a) := (List.pairwise_cons.mp hpair).2
      have hlt : ∀ x ∈ l, x < i := (List.pairwise_cons.mp hpair).1
      have hh' : h < (backStep vals nodes acc i).2.grads.length := by
        rw [backStep_grads_length]; exact hh
      rw [List.foldl_cons, List.filter_cons]
      have hfinal : ∀ j, i ≤ j →
          (l.foldl (backStep vals nodes) (backStep vals nodes acc i)).1.getD j
            defaultTensor = (backStep vals nodes acc i).1.getD j defaultTensor :=
        fun j hj => backFold_fst_getD_ge vals hwf l _ j (fun x hx => by
          have := hlt x hx; omega)
      by_cases hpr : (nodes.getD i nodeDefault).isParamRefFor h
      · rw [if_pos hpr]
        cases hnd : nodes.getD i nodeDefault with
        | paramRef h2 =>
            have hh2 : h2 = h := by
              rw [hnd] at hpr
              simpa [Node.isParamRefFor] using hpr
            subst hh2
            have hstep : (backStep vals nodes acc i).2 =
                acc.2.accumulate_gradient h2 (acc.1.getD i defaultTensor) := by
              unfold backStep
              rw [hnd]
            have hstepg : (backStep vals nodes acc i).1 = acc.1 := by
              unfold backStep
              rw [hnd]
            rw [ih _ hpair' hh', List.foldl_cons]
            congr 1
            · rw [hstep]
              unfold ParamStore.accumulate_gradient
              simp only
              rw [getD_set_self _ hh]
              congr 1
              rw [hfinal i (le_refl i), hstepg]
        | input sh d => rw [hnd] at hpr; simp [Node.isParamRefFor] at hpr
        | matmul a b => rw [hnd] at hpr; simp [Node.isParamRefFor] at hpr
        | add a b => rw [hnd] at hpr; simp [Node.isParamRefFor] at hpr
        | tanh a => rw [hnd] at hpr; simp [Node.isParamRefFor] at hpr
        | sigmoid a => rw [hnd] at hpr; simp [Node.isParamRefFor] at hpr
        | binaryLogLoss p y => rw [hnd] at hpr; simp [Node.isParamRefFor] at hpr
      · rw [if_neg hpr]
        have hsame : (backStep vals nodes acc i).2.grads.getD h defaultTensor =
            acc.2.grads.getD h defaultTensor := by
          unfold backStep
          cases hnd : nodes.getD i nodeDefault with
          | paramRef h2 =>
              have hh2 : h2 ≠ h := by
                rw [hnd] at hpr
                simpa [Node.isParamRefFor] using hpr
              unfold ParamStore.accumulate_gradient
              simp only
              rw [getD_set_ne _ hh2]
          | input sh d => rfl
          | matmul a b => rfl
          | add a b => rfl
          | tanh a => rfl
          | sigmoid a => rfl
          | binaryLogLoss p y => rfl
        rw [ih _ hpair' hh', hsame]

lemma backward_isOk (s : ParamStore) (g : Graph) (root : Nat) :
    exceptIsOk (backward s g root) = true ↔ (g.shapeAt root).prod = 1 := by
  unfold backward
  by_cases h : (g.shapeAt root).prod = 1
  · rw [if_pos h]
    simp [exceptIsOk, h]
  · rw [if_neg h]
    simp [exceptIsOk, h]

lemma backward_nonscalar (s : ParamStore) (g : Graph) (root : Nat)
    (h : (g.shapeAt root).prod ≠ 1) :
    backward s g root = .error .nonScalarBackwardRoot := by
  unfold backward
  rw [if_neg h]

lemma backward_scalar_eq (s : ParamStore) (g : Graph) (root : Nat)
    (h : (g.shapeAt root).prod = 1) :
    backward s g root =
      .ok (((List.range (root + 1)).reverse).foldl
        (backStep (evalList s g.nodes) g.nodes)
        ((g.shapes.map zeroTensor).set root (oneTensor (g.shapeAt root)), s)) := by
  unfold backward
  rw [if_pos h]

lemma range_reverse_pairwise (n : Nat) :
    ((List.range n).reverse).Pairwise (fun a b => b < a) := by
  rw [List.pairwise_reverse]
  exact List.pairwise_lt_range n

lemma range_reverse_le (n : Nat) : ∀ i ∈ (List.range (n + 1)).reverse, i ≤ n := by
  intro i hi
  rw [List.mem_reverse, List.mem_range] at hi
  omega

lemma backward_root_grad (s : ParamStore) {g : Graph} (hwf : wfNodes g.nodes)
    (root : Nat) (hr : root < g.shapes.length)
    (h : (g.shapeAt root).prod = 1) :
    (exceptGetD (backward s g root) ([], s)).1.getD root defaultTensor =
      oneTensor (g.shapeAt root) := by
  rw [backward_scalar_eq s g root h]
  unfold exceptGetD
  simp only
  rw [backFold_fst_getD_ge _ hwf _ _ root (range_reverse_le root)]
  rw [getD_set_self _ (by rw [List.length_map]; exact hr)]

lemma backward_store_grads (s : ParamStore) {g : Graph} (hwf : wfNodes g.nodes)
    (root : Nat) (hscalar : (g.shapeAt root).prod = 1) (h : Nat)
    (hh : h < s.grads.length) :
    (exceptGetD (backward s g root) ([], s)).2.grads.getD h defaultTensor =
      (((List.range (root + 1)).reverse).filter
          (fun i => (g.nodes.getD i nodeDefault).isParamRefFor h)).foldl
        (fun t i =>
          tAdd t ((exceptGetD (backward s g root) ([], s)).1.getD i defaultTensor))
        (s.grads.getD h defaultTensor) := by
  rw [backward_scalar_eq s g root hscalar]
  unfold exceptGetD
  simp only
  exact backFold_store_grads _ hwf h _ _ (range_reverse_pairwise (root + 1)) hh

lemma backward_ok_store (s : ParamStore) (g : Graph) (root : Nat)
    (gr : List Tensor) (s1 : ParamStore)
    (hb : backward s g root = .ok (gr, s1)) :
    s1.values = s.values ∧ s1.grads.length = s.grads.length := by
  unfold backward at hb
  by_cases h : (g.shapeAt root).prod = 1
  · rw [if_pos h] at hb
    simp only [Except.ok.injEq] at hb
    have h2 : s1 = (((List.range (root + 1)).reverse).foldl
        (backStep (evalList s g.nodes) g.nodes)
        ((g.shapes.map zeroTensor).set root (oneTensor (g.shapeAt root)), s)).2 := by
      rw [hb]
    rw [h2, backFold_values, backFold_grads_length]
    exact ⟨rfl, rfl⟩
  · rw [if_neg h] at hb
    exact absurd hb (by simp)

/-! ## Optimizer facts -/

lemma zipWith_sub_zero (lr : ℝ) :
    ∀ (xs zs : List ℝ), (∀ z ∈ zs, z = 0) → xs.length ≤ zs.length →
      List.zipWith (fun a b => a - lr * b) xs zs = xs := by
  intro xs
  induction xs with
  | nil => intro zs _ _; rfl
  | cons x xs ih =>
      intro zs hz hlen
      cases zs with
      | nil => simp at hlen
      | cons z zs =>
          simp only [List.zipWith_cons_cons]
          rw [hz z (by simp), ih zs (fun w hw => hz w (by simp [hw])) (by
            simpa using hlen)]
          ring_nf

lemma update_values_getD (s : ParamStore) (lr : ℝ) (i : Nat)
    (hi : i < s.values.length) (hg : i < s.grads.length) :
    (s.update lr).values.getD i defaultTensor =
      ⟨(s.values.getD i defaultTensor).shape,
        List.zipWith (fun a b => a - lr * b)
          (s.values.getD i defaultTensor).data
          (s.grads.getD i defaultTensor).data⟩ := by
  unfold ParamStore.update ParamStore.clear_gradients
  simp only
  rw [List.getD_eq_getElem _ _ (by rw [List.length_zipWith]; omega)]
  rw [List.getElem_zipWith]
  rw [List.getD_eq_getElem _ _ hi, List.getD_eq_getElem _ _ hg]

lemma update_grads_zero (s : ParamStore) (lr : ℝ) :
    ∀ t ∈ (s.update lr).grads, ∀ v ∈ t.data, v = 0 := by
  unfold ParamStore.update ParamStore.clear_gradients
  simp only
  intro t ht
  rw [List.mem_map] at ht
  obtain ⟨g, _, rfl⟩ := ht
  intro v hv
  rw [List.mem_map] at hv
  obtain ⟨w, _, rfl⟩ := hv
  rfl

lemma update_values_length (s : ParamStore) (lr : ℝ) :
    (s.update lr).values.length = min s.values.length s.grads.length := by
  unfold ParamStore.update ParamStore.clear_gradients
  simp [List.length_zipWith]

lemma update_grads_length (s : ParamStore) (lr : ℝ) :
    (s.update lr).grads.length = s.grads.length := by
  unfold ParamStore.update ParamStore.clear_gradients
  simp

lemma update_grads_getD_data_length (s : ParamStore) (lr : ℝ) (i : Nat)
    (hi : i < s.grads.length) :
    ((s.update lr).grads.getD i defaultTensor).data.length =
      (s.grads.getD i defaultTensor).data.length := by
  have hig : i < (s.update lr).grads.length := by rw [update_grads_length]; exact hi
  rw [List.getD_eq_getElem _ _ hig, List.getD_eq_getElem _ _ hi]
  unfold ParamStore.update ParamStore.clear_gradients
  simp only
  rw [List.getElem_map]
  simp

lemma update_update_values (s : ParamStore) (lr : ℝ) :
    ((s.update lr).update lr).values = (s.update lr).values := by
  set s1 := s.update lr with hs1
  apply List.ext_getElem
  · rw [update_values_length, hs1, update_values_length, update_grads_length]
    omega
  · intro i h1 h2
    have h2' : i < min s.values.length s.grads.length := by
      rw [hs1, update_values_length] at h2
      exact h2
    have hiv : i < s.values.length := by omega
    have hig0 : i < s.grads.length := by omega
    have hig : i < s1.grads.length := by rw [hs1, update_grads_length]; omega
    rw [← List.getD_eq_getElem _ defaultTensor h1, ← List.getD_eq_getElem _ defaultTensor h2]
    rw [update_values_getD s1 lr i h2 hig]
    have hzeros : ∀ z ∈ (s1.grads.getD i defaultTensor).data, z = 0 := by
      intro z hz
      have hmem : s1.grads.getD i defaultTensor ∈ s1.grads := by
        rw [List.getD_eq_getElem _ _ hig]
        exact List.getElem_mem hig
      exact update_grads_zero s lr _ hmem z hz
    have hlen : (s1.values.getD i defaultTensor).data.length ≤
        (s1.grads.getD i defaultTensor).data.length := by
      rw [hs1, update_values_getD s lr i hiv hig0,
        update_grads_getD_data_length s lr i hig0]
      simp [List.length_zipWith]
    rw [zipWith_sub_zero lr _ _ hzeros hlen]

/-! ## Scalar numeric facts -/

lemma sigmoidR_pos (x : ℝ) : 0 < sigmoidR x := by
  unfold sigmoidR
  have h : 0 < 1 + Real.exp (-x) := by positivity
  positivity

lemma sigmoidR_lt_one (x : ℝ) : sigmoidR x < 1 := by
  unfold sigmoidR
  have h : 0 < 1 + Real.exp (-x) := by positivity
  rw [div_lt_one h]
  have := Real.exp_pos (-x)
  linarith

lemma tanh_lt_one (x : ℝ) : Real.tanh x < 1 := by
  rw [Real.tanh_eq_sinh_div_cosh, div_lt_one (Real.cosh_pos x)]
  have h1 := Real.cosh_sub_sinh x
  have h2 := Real.exp_pos (-x)
  linarith

lemma neg_one_lt_tanh (x : ℝ) : -1 < Real.tanh x := by
  rw [Real.tanh_eq_sinh_div_cosh, lt_div_iff (Real.cosh_pos x)]
  have h1 := Real.sinh_add_cosh x
  have h2 := Real.exp_pos x
  linarith

lemma clampEps_bounds : 0 < clampEps ∧ clampEps < 1 / 2 := by
  unfold clampEps
  norm_num

lemma clampProb_bounds (p : ℝ) : 0 < clampProb p ∧ clampProb p < 1 := by
  unfold clampProb
  obtain ⟨he0, he1⟩ := clampEps_bounds
  by_cases h0 : p ≤ 0
  · rw [if_pos h0]
    constructor <;> linarith
  · rw [if_neg h0]
    push_neg at h0
    by_cases h1 : 1 ≤ p
    · rw [if_pos h1]
      constructor <;> linarith
    · rw [if_neg h1]
      push_neg at h1
      exact ⟨h0, h1⟩

lemma clampProb_of_unit (p : ℝ) (h0 : 0 < p) (h1 : p < 1) : clampProb p = p := by
  unfold clampProb
  rw [if_neg (by linarith), if_neg (by linarith)]

lemma bllScalar_of_unit (p y : ℝ) (h0 : 0 < p) (h1 : p < 1) :
    bllScalar p y = -(y * Real.log p + (1 - y) * Real.log (1 - p)) := by
  unfold bllScalar
  rw [clampProb_of_unit p h0 h1]

/-! ## Construction of the XOR network -/

lemma create_xor_network_ok (s : ParamStore) (pW pV pb : Nat)
    (h : xorStoreOK s pW pV pb) (q1 q2 ans : ℝ) :
    create_xor_network s pW pV pb [q1, q2] ans = .ok (xorGraph pW pV pb q1 q2 ans, 10) := by
  obtain ⟨_, _, _, _, hsW, hsV, hsb⟩ := h
  unfold create_xor_network Graph.parameter
  rw [hsW, hsV, hsb]
  rfl

/-! ## The dynamic training loop's step structure -/

lemma update_values_shape (s : ParamStore) (lr : ℝ) (hwf : StoreWF s) (i : Nat) :
    ((s.update lr).values.getD i defaultTensor).shape =
      (s.values.getD i defaultTensor).shape := by
  by_cases hi : i < s.values.length
  · rw [update_values_getD s lr i hi (by rw [← hwf]; exact hi)]
  · push_neg at hi
    rw [List.getD_eq_default _ _ hi, List.getD_eq_default _ _ (by
      rw [update_values_length]
      omega)]

lemma runDynExample_spec (lr : ℝ) (s : ParamStore) (pW pV pb : Nat)
    (q : Nat × Nat) (ans : Nat) (h : xorStoreOK s pW pV pb) :
    (runDynExample lr s pW pV pb q ans).2 = exampleTrace ∧
    xorStoreOK (runDynExample lr s pW pV pb q ans).1 pW pV pb ∧
    (runDynExample lr s pW pV pb q ans).1.values.length = s.values.length ∧
    ∀ i, ((runDynExample lr s pW pV pb q ans).1.values.getD i defaultTensor).shape =
      (s.values.getD i defaultTensor).shape := by
  have hgOk := create_xor_network_ok s pW pV pb h (q.1 : ℝ) (q.2 : ℝ) (ans : ℝ)
  set gX := xorGraph pW pV pb (q.1 : ℝ) (q.2 : ℝ) (ans : ℝ) with hgX
  have hscalar : (gX.shapeAt 10).prod = 1 := by rw [hgX]; rfl
  have hbEq := backward_scalar_eq s gX 10 hscalar
  set sMid := (((List.range (10 + 1)).reverse).foldl
    (backStep (evalList s gX.nodes) gX.nodes)
    ((gX.shapes.map zeroTensor).set 10 (oneTensor (gX.shapeAt 10)), s)).2 with hsMid
  have hvals : sMid.values = s.values := by rw [hsMid, backFold_values]
  have hglen : sMid.grads.length = s.grads.length := by rw [hsMid, backFold_grads_length]
  have hres : runDynExample lr s pW pV pb q ans = (sMid.update lr, exampleTrace) := by
    unfold runDynExample
    rw [hgOk]
    simp only
    rw [hbEq]
    rfl
  obtain ⟨hwfS, hW, hV, hb, hsW, hsV, hsb⟩ := h
  have hwfMid : StoreWF sMid := by
    unfold StoreWF
    rw [hvals, hglen]
    exact hwfS
  have hlenU : (sMid.update lr).values.length = s.values.length := by
    rw [update_values_length, hvals, hglen]
    unfold StoreWF at hwfS
    omega
  have hshapes : ∀ i, ((sMid.update lr).values.getD i defaultTensor).shape =
      (s.values.getD i defaultTensor).shape := by
    intro i
    rw [update_values_shape sMid lr hwfMid i, hvals]
  refine ⟨by rw [hres], ?_, by rw [hres]; exact hlenU, by rw [hres]; exact hshapes⟩
  rw [hres]
  refine ⟨?_, ?_, ?_, ?_, ?_, ?_, ?_⟩
  · unfold StoreWF
    rw [update_grads_length, hlenU, hglen]
    unfold StoreWF at hwfS
    omega
  · rw [hlenU]; exact hW
  · rw [hlenU]; exact hV
  · rw [hlenU]; exact hb
  · unfold ParamStore.valueOf
    rw [hshapes pW]
    exact hsW
  · unfold ParamStore.valueOf
    rw [hshapes pV]
    exact hsV
  · unfold ParamStore.valueOf
    rw [hshapes pb]
    exact hsb

lemma runDynLoop_aux (lr : ℝ) (pW pV pb : Nat) :
    ∀ (qas : List ((Nat × Nat) × Nat)) (s : ParamStore) (ev : List Event),
      xorStoreOK s pW pV pb →
      (qas.foldl
          (fun acc qa =>
            ((runDynExample lr acc.1 pW pV pb qa.1 qa.2).1,
              acc.2 ++ (runDynExample lr acc.1 pW pV pb qa.1 qa.2).2))
          (s, ev)).2 = ev ++ (List.replicate qas.length exampleTrace).flatten ∧
      xorStoreOK (qas.foldl
          (fun acc qa =>
            ((runDynExample lr acc.1 pW pV pb qa.1 qa.2).1,
              acc.2 ++ (runDynExample lr acc.1 pW pV pb qa.1 qa.2).2))
          (s, ev)).1 pW pV pb ∧
      (qas.foldl
          (fun acc qa =>
            ((runDynExample lr acc.1 pW pV pb qa.1 qa.2).1,
              acc.2 ++ (runDynExample lr acc.1 pW pV pb qa.1 qa.2).2))
          (s, ev)).1.values.length = s.values.length ∧
      ∀ i, ((qas.foldl
          (fun acc qa =>
            ((runDynExample lr acc.1 pW pV pb qa.1 qa.2).1,
              acc.2 ++ (runDynExample lr acc.1 pW pV pb qa.1 qa.2).2))
          (s, ev)).1.values.getD i defaultTensor).shape =
        (s.values.getD i defaultTensor).shape := by
  intro qas
  induction qas with
  | nil =>
      intro s ev h
      exact ⟨by simp, h, rfl, fun i => rfl⟩
  | cons qa qas ih =>
      intro s ev h
      rw [List.foldl_cons]
      obtain ⟨htr, hok, hlen, hsh⟩ := runDynExample_spec lr s pW pV pb qa.1 qa.2 h
      obtain ⟨ihtr, ihok, ihlen, ihsh⟩ :=
        ih (runDynExample lr s pW pV pb qa.1 qa.2).1
          (ev ++ (runDynExample lr s pW pV pb qa.1 qa.2).2) hok
      refine ⟨?_, ihok, by rw [ihlen, hlen], fun i => by rw [ihsh i, hsh i]⟩
      rw [ihtr, htr]
      simp [List.replicate_succ]

/-! ## Concrete demonstration graphs -/

lemma forwardVal_bllDemo (s : ParamStore) (p y : ℝ) :
    forwardVal s (bllDemoGraph p y) 2 = ⟨[1], [bllScalar p y]⟩ := rfl

lemma backward_demo :
    (exceptGetD (backward demoStore demoGraph 1) ([], demoStore)).1.getD 0 defaultTensor =
      ⟨[1], [2]⟩ := by
  have h : (exceptGetD (backward demoStore demoGraph 1) ([], demoStore)).1.getD 0
      defaultTensor = ⟨[1], [0 + 1 + 1]⟩ := rfl
  rw [h]
  norm_num

/-! ## The claims -/

/-- C1: for every `num_rounds`, `create_xor_instances(num_rounds)` returns
questions and answers of length `4*num_rounds`, consisting of the four XOR
pairs (0,0)->0, (0,1)->1, (1,0)->1, (1,1)->0 repeated `num_rounds` times in
that order, and each answer is 0 iff the question's two components are
equal. -/
theorem C1_create_xor_instances (num_rounds : Nat) :
    create_xor_instances num_rounds =
      ((List.replicate num_rounds xorQuestionsBlock).flatten,
       (List.replicate num_rounds xorAnswersBlock).flatten) ∧
    (create_xor_instances num_rounds).1.length = 4 * num_rounds ∧
    (create_xor_instances num_rounds).2.length = 4 * num_rounds ∧
    ∀ i, i < 4 * num_rounds →
      (create_xor_instances num_rounds).2.getD i 0 =
        (if ((create_xor_instances num_rounds).1.getD i (0, 0)).1 =
            ((create_xor_instances num_rounds).1.getD i (0, 0)).2 then 0 else 1) := by
  refine ⟨create_xor_instances_eq _, (create_xor_instances_lengths _).1,
    (create_xor_instances_lengths _).2, ?_⟩
  intro i hi
  rw [create_xor_instances_eq]
  exact xor_getD_answer num_rounds i hi

/-- Witness for C1 at `num_rounds = 1`, index 2 (the pair (1,0), answer 1). -/
theorem C1_witness :
    (create_xor_instances 1).2.getD 2 0 =
      (if ((create_xor_instances 1).1.getD 2 (0, 0)).1 =
          ((create_xor_instances 1).1.getD 2 (0, 0)).2 then 0 else 1) :=
  (C1_create_xor_instances 1).2.2.2 2 (by norm_num)

/-- C2: `binary_log_loss(p, y)` forwards to
`-(y*log(p) + (1-y)*log(1-p))` for every probability strictly between 0
and 1 and `y` in {0,1}, and the clamped probability always lies strictly
between 0 and 1, keeping the logarithms (and hence the loss) finite. -/
theorem C2_binary_log_loss (s : ParamStore) (p y : ℝ) (h0 : 0 < p) (h1 : p < 1)
    (_hy : y = 0 ∨ y = 1) :
    forwardVal s (bllDemoGraph p y) 2 =
      ⟨[1], [-(y * Real.log p + (1 - y) * Real.log (1 - p))]⟩ ∧
    ∀ q : ℝ, 0 < clampProb q ∧ clampProb q < 1 := by
  refine ⟨?_, clampProb_bounds⟩
  rw [forwardVal_bllDemo s p y, bllScalar_of_unit p y h0 h1]

/-- Witness for C2 at `p = 1/2`, `y = 1`. -/
theorem C2_witness :
    forwardVal ⟨[], []⟩ (bllDemoGraph (1 / 2) 1) 2 =
      ⟨[1], [-((1 : ℝ) * Real.log (1 / 2) + (1 - 1) * Real.log (1 - 1 / 2))]⟩ :=
  (C2_binary_log_loss ⟨[], []⟩ (1 / 2) 1 (by norm_num) (by norm_num) (Or.inr rfl)).1

/-- C3: `backward(root)` succeeds iff the root's value is scalar (shape
product 1) and fails with the non-scalar-root shape error otherwise; under
the scalar precondition the root's gradient ends at 1.0, gradients are
accumulated (summed) into operands — on the demo graph the doubly-used leaf
receives 1+1 = 2 — and each `paramRef` leaf's gradient is handed to the
Parameter Store's accumulator. -/
theorem C3_backward (s : ParamStore) (g : Graph) (root h : Nat)
    (hwf : wfNodes g.nodes) (hr : root < g.shapes.length)
    (hh : h < s.grads.length) :
    (exceptIsOk (backward s g root) = true ↔ (g.shapeAt root).prod = 1) ∧
    ((g.shapeAt root).prod ≠ 1 →
      backward s g root = .error .nonScalarBackwardRoot) ∧
    ((g.shapeAt root).prod = 1 →
      (exceptGetD (backward s g root) ([], s)).1.getD root defaultTensor =
        oneTensor (g.shapeAt root)) ∧
    ((g.shapeAt root).prod = 1 →
      (exceptGetD (backward s g root) ([], s)).2.grads.getD h defaultTensor =
        (((List.range (root + 1)).reverse).filter
            (fun i => (g.nodes.getD i nodeDefault).isParamRefFor h)).foldl
          (fun t i =>
            tAdd t ((exceptGetD (backward s g root) ([], s)).1.getD i defaultTensor))
          (s.grads.getD h defaultTensor)) ∧
    (exceptGetD (backward demoStore demoGraph 1) ([], demoStore)).1.getD 0
        defaultTensor = ⟨[1], [2]⟩ :=
  ⟨backward_isOk s g root,
   backward_nonscalar s g root,
   fun hs => backward_root_grad s hwf root hr hs,
   fun hs => backward_store_grads s hwf root hs h hh,
   backward_demo⟩

/-- Witness for C3 on the demo graph (shared scalar leaf under an `add`). -/
theorem C3_witness :
    exceptIsOk (backward demoStore demoGraph 1) = true ↔
      (demoGraph.shapeAt 1).prod = 1 :=
  (C3_backward demoStore demoGraph 1 0 (by unfold wfNodes; decide) (by decide)
    (by decide)).1

/-- C4: `update(learningRate)` replaces every parameter value elementwise
by `v - learningRate * g` for its accumulated gradient `g`, zeroes all
gradient accumulators, and consequently a second `update` with no
intervening `backward` leaves the parameter values unchanged. -/
theorem C4_update (s : ParamStore) (lr : ℝ) (i : Nat)
    (hi : i < s.values.length) (hg : i < s.grads.length) :
    (s.update lr).values.getD i defaultTensor =
      ⟨(s.values.getD i defaultTensor).shape,
        List.zipWith (fun a b => a - lr * b)
          (s.values.getD i defaultTensor).data
          (s.grads.getD i defaultTensor).data⟩ ∧
    (∀ t ∈ (s.update lr).grads, ∀ v ∈ t.data, v = 0) ∧
    ((s.update lr).update lr).values = (s.update lr).values :=
  ⟨update_values_getD s lr i hi hg, update_grads_zero s lr,
   update_update_values s lr⟩

/-- Witness for C4 on a one-parameter store. -/
theorem C4_witness :
    ((demoStore.update 1).update 1).values = (demoStore.update 1).values :=
  (C4_update demoStore 1 0 (by decide) (by decide)).2.2

/-- C5: `matmul(A, B)` fails with ShapeMismatch at construction time iff
`A`'s column count differs from `B`'s row count; in particular the
notebook's whole network — containing the products `W*x` (8 x 2 times a
2-vector) and `V*h` (1 x 8 times an 8-vector) — constructs without
error. -/
theorem C5_matmul (g : Graph) (a b : Nat) (s : ParamStore) (pW pV pb : Nat)
    (q1 q2 ans : ℝ) (h : xorStoreOK s pW pV pb) :
    (exceptIsOk (g.matmul a b) = false ↔
      shapeCols (g.shapeAt a) ≠ shapeRows (g.shapeAt b)) ∧
    (shapeCols (g.shapeAt a) ≠ shapeRows (g.shapeAt b) →
      g.matmul a b = .error .shapeMismatch) ∧
    exceptIsOk (create_xor_network s pW pV pb [q1, q2] ans) = true := by
  refine ⟨?_, ?_, ?_⟩
  · unfold Graph.matmul
    by_cases hc : shapeCols (g.shapeAt a) = shapeRows (g.shapeAt b)
    · rw [if_pos hc]
      simp [exceptIsOk, hc]
    · rw [if_neg hc]
      simp [exceptIsOk, hc]
  · intro hc
    unfold Graph.matmul
    rw [if_neg hc]
  · rw [create_xor_network_ok s pW pV pb h q1 q2 ans]
    rfl

/-- Witness for C5: the notebook network constructs on the zero store. -/
theorem C5_witness :
    exceptIsOk (create_xor_network xorDemoStore 0 1 2 [0, 1] 1) = true :=
  (C5_matmul Graph.empty 0 0 xorDemoStore 0 1 2 0 1 1
    (by unfold xorStoreOK StoreWF ParamStore.valueOf; refine ⟨by decide, by decide,
      by decide, by decide, rfl, rfl, rfl⟩)).2.2

/-- C6: elementwise over any tensor, the forward value of a `sigmoid` node
lies strictly in (0,1) and that of a `tanh` node strictly in (-1,1). -/
theorem C6_activation_range :
    (∀ (s : ParamStore) (look : Nat → Tensor) (a : Nat) (v : ℝ),
      v ∈ (evalNode s look (.sigmoid a)).data → 0 < v ∧ v < 1) ∧
    (∀ (s : ParamStore) (look : Nat → Tensor) (a : Nat) (v : ℝ),
      v ∈ (evalNode s look (.tanh a)).data → -1 < v ∧ v < 1) := by
  constructor
  · intro s look a v hv
    simp only [evalNode, Tensor.map, List.mem_map] at hv
    obtain ⟨x, _, rfl⟩ := hv
    exact ⟨sigmoidR_pos x, sigmoidR_lt_one x⟩
  · intro s look a v hv
    simp only [evalNode, Tensor.map, List.mem_map] at hv
    obtain ⟨x, _, rfl⟩ := hv
    exact ⟨neg_one_lt_tanh x, tanh_lt_one x⟩

/-- Witness for C6 at the scalar input 0. -/
theorem C6_witness : 0 < sigmoidR 0 ∧ sigmoidR 0 < 1 :=
  C6_activation_range.1 ⟨[], []⟩ (fun _ => ⟨[1], [0]⟩) 0 (sigmoidR 0)
    (by simp [evalNode, Tensor.map])

/-- C7: memoized evaluation is idempotent — evaluating the same node twice
with no intervening `set`/reset returns the identical value — and a `set`
on an input leaf invalidates all dependents' cached values, so the next
evaluation returns the reference forward value of the updated graph. -/
theorem C7_memoization :
    (∀ (s : ParamStore) (g : Graph) (c : Nat → Option Tensor) (n : Nat),
      (evaluate s g ((evaluate s g c n).2) n).1 = (evaluate s g c n).1) ∧
    (∀ (s : ParamStore) (g : Graph) (c : Nat → Option Tensor) (k : Nat)
      (sh : List Nat) (d0 data : List ℝ) (n : Nat),
      wfNodes g.nodes → g.nodes.getD k nodeDefault = .input sh d0 →
      coherent s g.nodes c →
      (evaluate s (cgSet g c k data).1 (cgSet g c k data).2 n).1 =
        forwardVal s (cgSet g c k data).1 n) := by
  constructor
  · intro s g c n
    rw [evaluate_idem]
  · intro s g c k sh d0 data n hwf hk hc
    exact evaluate_correct s (cgSet_wf hwf c k data) (cgSet_coherent s data hwf hk hc) n

/-- Witness for C7: set the input of a two-node graph, then evaluate. -/
theorem C7_witness :
    (evaluate ⟨[], []⟩ (cgSet memoDemoGraph (fun _ => none) 0 [7]).1
        (cgSet memoDemoGraph (fun _ => none) 0 [7]).2 1).1 =
      forwardVal ⟨[], []⟩ (cgSet memoDemoGraph (fun _ => none) 0 [7]).1 1 :=
  C7_memoization.2 ⟨[], []⟩ memoDemoGraph (fun _ => none) 0 [1] [3] [7] 1
    (by unfold wfNodes; decide) rfl (fun i v hv => Option.noConfusion hv)

/-- C8: every training example of the dynamic loop performs exactly
Reset -> Build -> Forward -> Backward -> Update (the trace is that
five-event block repeated once per example, so backward never precedes the
forward pass and the update never precedes backward), each example's graph
is built from the empty graph, and the parameter store persists: the
number of parameters and each parameter's shape are unchanged across the
whole loop. -/
theorem C8_training_step_order (lr : ℝ) (s : ParamStore) (pW pV pb : Nat)
    (qas : List ((Nat × Nat) × Nat)) (h : xorStoreOK s pW pV pb) :
    (runDynLoop lr s pW pV pb qas).2 =
      (List.replicate qas.length exampleTrace).flatten ∧
    (runDynLoop lr s pW pV pb qas).1.values.length = s.values.length ∧
    ∀ i, ((runDynLoop lr s pW pV pb qas).1.values.getD i defaultTensor).shape =
      (s.values.getD i defaultTensor).shape := by
  obtain ⟨htr, _, hlen, hsh⟩ := runDynLoop_aux lr pW pV pb qas s [] h
  unfold runDynLoop
  exact ⟨by simpa using htr, hlen, hsh⟩

/-- Witness for C8 on one training example over the zero store. -/
theorem C8_witness :
    (runDynLoop 1 xorDemoStore 0 1 2 [((0, 0), 0)]).2 =
      (List.replicate 1 exampleTrace).flatten :=
  (C8_training_step_order 1 xorDemoStore 0 1 2 [((0, 0), 0)]
    (by unfold xorStoreOK StoreWF ParamStore.valueOf; refine ⟨by decide, by decide,
      by decide, by decide, rfl, rfl, rfl⟩)).1

/-- C10: after the k-th (question, answer) pair the loop's `total_loss` is
the sum of the first k observed loss values, `seen_instances` is k, and an
average is printed exactly at those instance counts that exceed 1 and are
multiples of 100, the printed value being `total_loss / seen_instances` —
the running mean of all losses seen so far. -/
theorem C10_loop_bookkeeping (lossSeq : Nat → ℝ) (k : Nat) :
    (runTrainLoop lossSeq k).total_loss = ((List.range k).map lossSeq).sum ∧
    (runTrainLoop lossSeq k).seen_instances = k ∧
    (runTrainLoop lossSeq k).printed =
      ((List.range k).filter (fun j => decide (1 < j + 1 ∧ (j + 1) % 100 = 0))).map
        (fun j => (j + 1, ((List.range (j + 1)).map lossSeq).sum / ((j + 1 : Nat) : ℝ))) :=
  runTrainLoop_spec lossSeq k

end XorTutorial
